import Mathlib

/-!
Verification of the language-tutoring chat application: PCM codec,
base64 transport coding, the live-audio turn state machine, error
mapping, text-turn history assembly, and recording buffer handling.
Floating-point samples are modelled as rationals; JavaScript strings
are modelled as lists of characters or code points.
-/

namespace AllBahasa

/-! ## PCM codec (float32ToInt16 and the int16-to-float step) -/

/-- Clamp of one sample, from the source line
`const s = Math.max(-1, Math.min(1, float32Array[i]))`. -/
def clampSample (x : ℚ) : ℚ := max (-1) (min 1 x)

/-- Truncation toward zero, the rounding JavaScript applies when a
number is stored into an Int16Array element. -/
def ratTruncToZero (q : ℚ) : ℤ := if q < 0 then -(⌊-q⌋) else ⌊q⌋

/-- Wrap of an integer into the signed 16-bit range, the second half of
the Int16Array element-store conversion. -/
def wrapInt16 (n : ℤ) : ℤ := (n + 32768) % 65536 - 32768

/-- One element of the source loop
`int16Array[i] = s < 0 ? s * 0x8000 : s * 0x7fff` including the
Int16Array store conversion (truncate toward zero, then wrap). -/
def sampleToInt16 (x : ℚ) : ℤ :=
  let s := clampSample x
  wrapInt16 (ratTruncToZero (if s < 0 then s * 32768 else s * 32767))

/-- The source function float32ToInt16: elementwise conversion of a
Float32Array to an Int16Array. -/
def float32ToInt16 (xs : List ℚ) : List ℤ := xs.map sampleToInt16

/-- The int16-to-float step of the source function base64ToFloat32:
`float32[i] = int16[i] / 32768.0`. -/
def int16ToFloatStep (n : ℤ) : ℚ := (n : ℚ) / 32768

/-- The codec conversion as the specification words it: clamp each
sample to the interval from -1 to 1, scale negative samples by 32768
and the rest by 32767, and round toward zero, with no wrap step. -/
def floatToInt16Spec (xs : List ℚ) : List ℤ :=
  xs.map fun x =>
    let s := clampSample x
    ratTruncToZero (if s < 0 then s * 32768 else s * 32767)

lemma clampSample_mem (x : ℚ) : -1 ≤ clampSample x ∧ clampSample x ≤ 1 := by
  constructor
  · exact le_max_left _ _
  · have h := min_le_left 1 x
    calc clampSample x ≤ max (-1) (min 1 x) := le_rfl
    _ ≤ 1 := by
        apply max_le
        · norm_num
        · exact min_le_left 1 x

lemma ratTruncToZero_bounds (x : ℚ) :
    -32768 ≤ ratTruncToZero (if clampSample x < 0 then clampSample x * 32768
      else clampSample x * 32767) ∧
    ratTruncToZero (if clampSample x < 0 then clampSample x * 32768
      else clampSample x * 32767) ≤ 32767 := by
  obtain ⟨hlo, hhi⟩ := clampSample_mem x
  set s := clampSample x with hs
  by_cases hneg : s < 0
  · simp only [if_pos hneg]
    have hv1 : s * 32768 < 0 := by nlinarith
    have hv2 : -32768 ≤ s * 32768 := by nlinarith
    rw [ratTruncToZero, if_pos hv1]
    constructor
    · have : ⌊-(s * 32768)⌋ ≤ 32768 := by
        have : -(s * 32768) ≤ (32768 : ℚ) := by nlinarith
        calc ⌊-(s * 32768)⌋ ≤ ⌊(32768 : ℚ)⌋ := Int.floor_le_floor this
        _ = 32768 := by norm_num
      omega
    · have : (0 : ℤ) ≤ ⌊-(s * 32768)⌋ := by
        apply Int.floor_nonneg.mpr
        nlinarith
      omega
  · simp only [if_neg hneg]
    push_neg at hneg
    have hv1 : 0 ≤ s * 32767 := by nlinarith
    have hv2 : s * 32767 ≤ 32767 := by nlinarith
    rw [ratTruncToZero, if_neg (not_lt.mpr hv1)]
    constructor
    · have : (0 : ℤ) ≤ ⌊s * 32767⌋ := Int.floor_nonneg.mpr hv1
      omega
    · calc ⌊s * 32767⌋ ≤ ⌊(32767 : ℚ)⌋ := Int.floor_le_floor hv2
      _ = 32767 := by norm_num

lemma wrapInt16_eq_self {n : ℤ} (hlo : -32768 ≤ n) (hhi : n ≤ 32767) :
    wrapInt16 n = n := by
  rw [wrapInt16]
  omega

lemma sampleToInt16_eq_spec (x : ℚ) :
    sampleToInt16 x = ratTruncToZero (if clampSample x < 0 then
      clampSample x * 32768 else clampSample x * 32767) := by
  obtain ⟨h1, h2⟩ := ratTruncToZero_bounds x
  rw [sampleToInt16]
  exact wrapInt16_eq_self h1 h2

/-- C7: float32ToInt16 clamps each sample to the interval from -1 to 1,
scales negative samples by 32768 and nonnegative ones by 32767 rounding
toward zero, with no dithering (the 16-bit wrap of the array store never
fires), and the output has the same length as the input. -/
theorem float32ToInt16_clamp_scale_truncate (xs : List ℚ) :
    float32ToInt16 xs = floatToInt16Spec xs ∧
    (float32ToInt16 xs).length = xs.length := by
  constructor
  · rw [float32ToInt16, floatToInt16Spec]
    apply List.map_congr_left
    intro x _
    exact sampleToInt16_eq_spec x
  · rw [float32ToInt16, List.length_map]

lemma clampSample_eq_self {x : ℚ} (h1 : -1 ≤ x) (h2 : x ≤ 1) :
    clampSample x = x := by
  rw [clampSample, min_eq_right h2, max_eq_right h1]

lemma roundtrip_error_elem (x : ℚ) (h1 : -1 ≤ x) (h2 : x ≤ 1) :
    |int16ToFloatStep (sampleToInt16 x) - x| ≤ 1 / 16384 := by
  rw [sampleToInt16_eq_spec, clampSample_eq_self h1 h2]
  by_cases hneg : x < 0
  · rw [if_pos hneg, ratTruncToZero]
    have hv : x * 32768 < 0 := by nlinarith
    rw [if_pos hv]
    have hfl : (⌊-(x * 32768)⌋ : ℚ) ≤ -(x * 32768) := Int.floor_le _
    have hfu : -(x * 32768) < ⌊-(x * 32768)⌋ + 1 := Int.lt_floor_add_one _
    rw [int16ToFloatStep, abs_le]
    constructor
    · push_cast
      nlinarith
    · push_cast
      nlinarith
  · push_neg at hneg
    rw [if_neg (not_lt.mpr hneg), ratTruncToZero]
    have hv : (0 : ℚ) ≤ x * 32767 := by nlinarith
    rw [if_neg (not_lt.mpr hv)]
    have hfl : (⌊x * 32767⌋ : ℚ) ≤ x * 32767 := Int.floor_le _
    have hfu : x * 32767 < ⌊x * 32767⌋ + 1 := Int.lt_floor_add_one _
    rw [int16ToFloatStep, abs_le]
    constructor
    · nlinarith
    · nlinarith

/-- C1 counterexample: the in-range sample 65533/65536 round-trips
through float32ToInt16 and the division step of base64ToFloat32 with
per-element error 3/65536, which exceeds 1/32768. -/
theorem roundtrip_error_counterexample :
    ¬ |((float32ToInt16 [(65533 : ℚ) / 65536]).map int16ToFloatStep).getD 0 0 -
        ([(65533 : ℚ) / 65536]).getD 0 0| ≤ 1 / 32768 := by
  have hclamp : clampSample ((65533 : ℚ) / 65536) = (65533 : ℚ) / 65536 :=
    clampSample_eq_self (by norm_num) (by norm_num)
  have hpos : ¬ ((65533 : ℚ) / 65536 < 0) := by norm_num
  have hfloor : ⌊(65533 : ℚ) / 65536 * 32767⌋ = 32765 := by
    rw [Int.floor_eq_iff]
    constructor
    · norm_num
    · norm_num
  have hval : sampleToInt16 ((65533 : ℚ) / 65536) = 32765 := by
    rw [sampleToInt16_eq_spec, hclamp, if_neg hpos, ratTruncToZero,
      if_neg (by norm_num), hfloor]
  simp only [float32ToInt16, List.map_cons, List.map_nil, hval,
    List.getD_cons_zero]
  rw [int16ToFloatStep]
  have habs : |(32765 : ℚ) / 32768 - 65533 / 65536| = 3 / 65536 := by
    rw [abs_sub_comm]
    rw [abs_of_nonneg (by norm_num)]
    norm_num
  push_cast
  rw [habs]
  norm_num

/-- C1 (amended): for every sample sequence whose samples lie in the
interval from -1 to 1, applying float32ToInt16 and then the
int16-to-float step of base64ToFloat32 (division by 32768) yields a
sequence whose per-element difference from the input is at most
1/16384. -/
theorem roundtrip_error_le (xs : List ℚ) (hx : ∀ x ∈ xs, -1 ≤ x ∧ x ≤ 1)
    (i : ℕ) (hi : i < xs.length) :
    |((float32ToInt16 xs).map int16ToFloatStep).getD i 0 - xs.getD i 0| ≤
      1 / 16384 := by
  have hlen : i < ((float32ToInt16 xs).map int16ToFloatStep).length := by
    simpa [float32ToInt16] using hi
  rw [List.getD_eq_getElem _ _ hlen, List.getD_eq_getElem _ _ hi]
  simp only [float32ToInt16, List.getElem_map]
  obtain ⟨hl, hr⟩ := hx (xs.get ⟨i, hi⟩) (List.get_mem xs i hi)
  simp only [List.get_eq_getElem] at hl hr
  exact roundtrip_error_elem _ hl hr

/-- C1 witness: the amended bound at the concrete one-sample sequence
containing 1/2. -/
theorem roundtrip_error_le_witness :
    |((float32ToInt16 [(1 : ℚ) / 2]).map int16ToFloatStep).getD 0 0 -
        ([(1 : ℚ) / 2]).getD 0 0| ≤ 1 / 16384 :=
  roundtrip_error_le [(1 : ℚ) / 2] (by norm_num) 0 (by simp)

/-! ## Base64 transport coding (arrayBufferToBase64 and the decode step
of base64ToFloat32)

The source builds a binary string whose code points are the buffer's
bytes (String.fromCharCode) and calls the browser builtin btoa; decoding
calls atob and reads the code points back (charCodeAt).  Strings of code
points are modelled as lists of naturals.  btoa and atob themselves are
not in the repository. -/

/-- Modelled from the spec: the standard base64 alphabet ("standard
alphabet, no padding ambiguity") used by the browser builtins btoa and
atob, as a function from a sextet value to its character. -/
def b64Alphabet (n : ℕ) : Char :=
  if n < 26 then Char.ofNat (65 + n)
  else if n < 52 then Char.ofNat (97 + (n - 26))
  else if n < 62 then Char.ofNat (48 + (n - 52))
  else if n = 62 then '+'
  else '/'

/-- Modelled from the spec: the inverse lookup of the standard base64
alphabet, returning none on a character outside the alphabet. -/
def b64Index (c : Char) : Option ℕ :=
  if 'A' ≤ c ∧ c ≤ 'Z' then some (c.toNat - 65)
  else if 'a' ≤ c ∧ c ≤ 'z' then some (c.toNat - 97 + 26)
  else if '0' ≤ c ∧ c ≤ '9' then some (c.toNat - 48 + 52)
  else if c = '+' then some 62
  else if c = '/' then some 63
  else none

/-- Modelled from the spec: the browser builtin btoa on a binary string
given as its list of code points, producing the base64 text with
standard '=' padding. -/
def btoaBytes : List ℕ → List Char
  | [] => []
  | [b0] => [b64Alphabet (b0 / 4), b64Alphabet (b0 % 4 * 16), '=', '=']
  | [b0, b1] => [b64Alphabet (b0 / 4), b64Alphabet (b0 % 4 * 16 + b1 / 16),
      b64Alphabet (b1 % 16 * 4), '=']
  | b0 :: b1 :: b2 :: rest =>
      b64Alphabet (b0 / 4) :: b64Alphabet (b0 % 4 * 16 + b1 / 16) ::
      b64Alphabet (b1 % 16 * 4 + b2 / 64) :: b64Alphabet (b2 % 64) ::
      btoaBytes rest

/-- Modelled from the spec: the browser builtin atob, decoding base64
text to the list of code points of the binary string, or none on
malformed input (the DecodeError case). -/
def atobBytes : List Char → Option (List ℕ)
  | [] => some []
  | c0 :: c1 :: c2 :: c3 :: rest =>
    match b64Index c0, b64Index c1 with
    | some s0, some s1 =>
      if c2 = '=' then
        if c3 = '=' ∧ rest = [] ∧ s1 % 16 = 0 then
          some [s0 * 4 + s1 / 16]
        else none
      else
        match b64Index c2 with
        | some s2 =>
          if c3 = '=' then
            if rest = [] ∧ s2 % 4 = 0 then
              some [s0 * 4 + s1 / 16, s1 % 16 * 16 + s2 / 4]
            else none
          else
            match b64Index c3 with
            | some s3 =>
              (atobBytes rest).map
                (fun tl => (s0 * 4 + s1 / 16) :: (s1 % 16 * 16 + s2 / 4) ::
                  (s2 % 4 * 64 + s3) :: tl)
            | none => none
        | none => none
    | _, _ => none
  | _ => none

/-- The source function arrayBufferToBase64: the byte-to-binary-string
loop is the identity on code points, then btoa encodes them. -/
def arrayBufferToBase64 (bytes : List ℕ) : List Char := btoaBytes bytes

lemma b64Index_b64Alphabet : ∀ n, n < 64 → b64Index (b64Alphabet n) = some n := by
  decide

lemma b64Alphabet_ne_pad : ∀ n, n < 64 → b64Alphabet n ≠ '=' := by
  decide

lemma atobBytes_btoaBytes (bs : List ℕ) (hb : ∀ b ∈ bs, b < 256) :
    atobBytes (btoaBytes bs) = some bs := by
  induction bs using btoaBytes.induct with
  | case1 => rfl
  | case2 b0 =>
    have hb0 : b0 < 256 := hb b0 (by simp)
    have h0 : b64Index (b64Alphabet (b0 / 4)) = some (b0 / 4) :=
      b64Index_b64Alphabet _ (by omega)
    have h1 : b64Index (b64Alphabet (b0 % 4 * 16)) = some (b0 % 4 * 16) :=
      b64Index_b64Alphabet _ (by omega)
    have hmod : b0 % 4 * 16 % 16 = 0 := by omega
    simp [btoaBytes, atobBytes, h0, h1, hmod]
    omega
  | case3 b0 b1 =>
    have hb0 : b0 < 256 := hb b0 (by simp)
    have hb1 : b1 < 256 := hb b1 (by simp)
    have h0 : b64Index (b64Alphabet (b0 / 4)) = some (b0 / 4) :=
      b64Index_b64Alphabet _ (by omega)
    have h1 : b64Index (b64Alphabet (b0 % 4 * 16 + b1 / 16)) =
        some (b0 % 4 * 16 + b1 / 16) :=
      b64Index_b64Alphabet _ (by omega)
    have h2 : b64Index (b64Alphabet (b1 % 16 * 4)) = some (b1 % 16 * 4) :=
      b64Index_b64Alphabet _ (by omega)
    have hne : b64Alphabet (b1 % 16 * 4) ≠ '=' :=
      b64Alphabet_ne_pad _ (by omega)
    have hmod : b1 % 16 * 4 % 4 = 0 := by omega
    simp [btoaBytes, atobBytes, h0, h1, h2, hne, hmod]
    omega
  | case4 b0 b1 b2 rest ih =>
    have hb0 : b0 < 256 := hb b0 (by simp)
    have hb1 : b1 < 256 := hb b1 (by simp)
    have hb2 : b2 < 256 := hb b2 (by simp)
    have hrest : ∀ b ∈ rest, b < 256 := fun b hmem => hb b (by simp [hmem])
    have h0 : b64Index (b64Alphabet (b0 / 4)) = some (b0 / 4) :=
      b64Index_b64Alphabet _ (by omega)
    have h1 : b64Index (b64Alphabet (b0 % 4 * 16 + b1 / 16)) =
        some (b0 % 4 * 16 + b1 / 16) :=
      b64Index_b64Alphabet _ (by omega)
    have h2 : b64Index (b64Alphabet (b1 % 16 * 4 + b2 / 64)) =
        some (b1 % 16 * 4 + b2 / 64) :=
      b64Index_b64Alphabet _ (by omega)
    have h3 : b64Index (b64Alphabet (b2 % 64)) = some (b2 % 64) :=
      b64Index_b64Alphabet _ (by omega)
    have hne2 : b64Alphabet (b1 % 16 * 4 + b2 / 64) ≠ '=' :=
      b64Alphabet_ne_pad _ (by omega)
    have hne3 : b64Alphabet (b2 % 64) ≠ '=' :=
      b64Alphabet_ne_pad _ (by omega)
    simp [btoaBytes, atobBytes, h0, h1, h2, h3, hne2, hne3, ih hrest]
    omega

/-- C8: decoding the base64 encoding of any byte sequence returns the
original bytes exactly, and the empty sequence is valid, encoding to
the empty text and decoding back to the empty byte sequence. -/
theorem base64_roundtrip (bs : List ℕ) (hb : ∀ b ∈ bs, b < 256) :
    atobBytes (arrayBufferToBase64 bs) = some bs ∧
    arrayBufferToBase64 [] = [] ∧ atobBytes [] = some [] :=
  ⟨atobBytes_btoaBytes bs hb, rfl, rfl⟩

/-- C8 witness: the round trip at the concrete byte sequences
[0, 128, 255], [7] and []. -/
theorem base64_roundtrip_witness :
    atobBytes (arrayBufferToBase64 [0, 128, 255]) = some [0, 128, 255] ∧
    atobBytes (arrayBufferToBase64 [7]) = some [7] ∧
    atobBytes (arrayBufferToBase64 []) = some [] :=
  ⟨(base64_roundtrip [0, 128, 255] (by decide)).1,
   (base64_roundtrip [7] (by decide)).1,
   (base64_roundtrip [] (by decide)).1⟩

/-! ## Error mapping of the turn endpoints (catch blocks of both POST
handlers) -/

/-- Matching of a character-list pattern at the head of a text, the
building block of the JavaScript String.prototype.includes test used in
`error.message.includes(...)`. -/
def leadsWith : List Char → List Char → Bool
  | [], _ => true
  | _ :: _, [] => false
  | a :: as, b :: bs => a == b && leadsWith as bs

/-- Occurrence of a character-list pattern anywhere in a text, the
semantics of the JavaScript String.prototype.includes test. -/
def occursIn : List Char → List Char → Bool
  | needle, [] => needle.isEmpty
  | needle, h :: t => leadsWith needle (h :: t) || occursIn needle t

/-- The source test `s.includes(pat)` on JavaScript strings. -/
def jsIncludes (s pat : String) : Bool := occursIn pat.data s.data

lemma leadsWith_append (xs ys : List Char) : leadsWith xs (xs ++ ys) = true := by
  induction xs with
  | nil => rfl
  | cons a as ih => simp [leadsWith, ih]

lemma occursIn_of_leadsWith (n l : List Char) (hlw : leadsWith n l = true) :
    occursIn n l = true := by
  cases l with
  | nil =>
    cases n with
    | nil => rfl
    | cons a as => simp [leadsWith] at hlw
  | cons h t => simp [occursIn, hlw]

lemma occursIn_append (n pre l : List Char) (hocc : occursIn n l = true) :
    occursIn n (pre ++ l) = true := by
  induction pre with
  | nil => simpa
  | cons a as ih => simp [occursIn, ih]

lemma jsIncludes_around (pre mid post : String) :
    jsIncludes (pre ++ mid ++ post) mid = true := by
  rw [jsIncludes]
  have hdata : (pre ++ mid ++ post).data = pre.data ++ (mid.data ++ post.data) := by
    simp [String.data_append]
  rw [hdata]
  exact occursIn_append _ _ _
    (occursIn_of_leadsWith _ _ (leadsWith_append _ _))

/-- An exception caught by a turn endpoint: a JavaScript Error carrying
a message, or any other thrown value. -/
inductive CaughtExn where
  | jsError (msg : String)
  | nonError
deriving DecidableEq

/-- The fixed invalid-credential message of the source catch blocks. -/
def invalidKeyMsg : String :=
  "API key tidak valid. Silakan periksa kembali API key Gemini Anda."

/-- The fixed unknown-error message of the source catch blocks. -/
def unknownErrorMsg : String := "Terjadi kesalahan yang tidak diketahui"

/-- An HTTP reply of the turn endpoints: a success payload of the
audio-turn endpoint, or an error with a status code. -/
inductive HttpReply where
  | ok (audioChunks : List String) (sampleRate : ℕ)
  | err (status : ℕ) (msg : String)
deriving DecidableEq

/-- The catch-block mapping shared by both turn endpoints: a message
containing API_KEY_INVALID or API key becomes a 401 with the fixed
invalid-credential text, any other Error becomes a 500 carrying the
message, and a non-Error exception becomes a 500 with the fixed
unknown-error text. -/
def mapCaughtError : CaughtExn → HttpReply
  | .jsError msg =>
      if jsIncludes msg "API_KEY_INVALID" || jsIncludes msg "API key" then
        .err 401 invalidKeyMsg
      else
        .err 500 ("Error: " ++ msg)
  | .nonError => .err 500 unknownErrorMsg

/-- C4: an Error whose message contains API_KEY_INVALID or API key,
regardless of surrounding text, maps to a 401 invalid-credential
failure; any other Error maps to a 500 carrying the remote message; a
non-Error exception maps to a 500 unknown-error failure. -/
theorem error_mapping (pre post msg : String)
    (hmsg1 : jsIncludes msg "API_KEY_INVALID" = false)
    (hmsg2 : jsIncludes msg "API key" = false) :
    mapCaughtError (.jsError (pre ++ "API_KEY_INVALID" ++ post)) =
      .err 401 invalidKeyMsg ∧
    mapCaughtError (.jsError (pre ++ "API key" ++ post)) =
      .err 401 invalidKeyMsg ∧
    mapCaughtError (.jsError msg) = .err 500 ("Error: " ++ msg) ∧
    mapCaughtError .nonError = .err 500 unknownErrorMsg := by
  refine ⟨?_, ?_, ?_, rfl⟩
  · simp [mapCaughtError, jsIncludes_around pre "API_KEY_INVALID" post]
  · simp [mapCaughtError, jsIncludes_around pre "API key" post]
  · simp [mapCaughtError, hmsg1, hmsg2]

/-- C4 witness: the mapping at concrete messages, with the API key
pattern embedded in surrounding text. -/
theorem error_mapping_witness :
    mapCaughtError (.jsError ("xx" ++ "API_KEY_INVALID" ++ "yy")) =
      .err 401 invalidKeyMsg ∧
    mapCaughtError (.jsError ("oh: " ++ "API key" ++ " bad")) =
      .err 401 invalidKeyMsg ∧
    mapCaughtError (.jsError "quota exceeded") =
      .err 500 ("Error: " ++ "quota exceeded") :=
  ⟨(error_mapping "xx" "yy" "quota exceeded" (by decide) (by decide)).1,
   (error_mapping "oh: " " bad" "quota exceeded" (by decide) (by decide)).2.1,
   (error_mapping "" "" "quota exceeded" (by decide) (by decide)).2.2.1⟩

/-! ## The live-audio turn (the Promise executor of the audio endpoint's
POST handler)

The executor's shared mutable variables (resolved, audioChunks,
sessionError, the pending timeout) form a state; each callback
invocation (onopen, onmessage, onerror, onclose), the firing of the
30-second timeout, and the rejection of the connect call is one event
applied to that state. -/

/-- An event of the live-audio turn race. -/
inductive LiveEvent where
  | eOpen
  | eMessage (parts : List (Option String)) (turnComplete : Bool)
  | eError (msg : String)
  | eClose
  | eTimeout
  | eConnectFail (exn : CaughtExn)
deriving DecidableEq

/-- A settlement of the executor's Promise: resolve, or reject with the
exception carried. -/
inductive LiveOutcome where
  | resolvedOk
  | rejected (exn : CaughtExn)
deriving DecidableEq

/-- The mutable state of the Promise executor in the audio POST
handler. -/
structure LiveState where
  resolved : Bool
  audioChunks : List String
  sessionError : Option String
  timeoutActive : Bool
  outcome : Option LiveOutcome
deriving DecidableEq

/-- State at the start of the Promise executor: nothing resolved, no
fragments, no session error, the 30-second timer armed. -/
def initLiveState : LiveState :=
  { resolved := false, audioChunks := [], sessionError := none,
    timeoutActive := true, outcome := none }

/-- The timeout rejection message of the source. -/
def timeoutMsg : String := "Timeout: tidak ada respons dari Gemini Live API"

/-- One event of the live-audio turn applied to the executor state,
following the source callbacks line by line: onmessage always appends
inline-data fragments, then settles on turnComplete if unresolved;
onerror always clears the timer and records sessionError, then rejects
if unresolved; onclose resolves if unresolved; the timeout, if its
timer was not cleared, resolves when at least one fragment was received
and rejects with the timeout message otherwise; a failed connect call
rejects if unresolved; onopen only sends the outbound audio. -/
def stepEvent (s : LiveState) (e : LiveEvent) : LiveState :=
  match e with
  | .eOpen => s
  | .eMessage parts turnComplete =>
      let s1 := { s with audioChunks := s.audioChunks ++ parts.filterMap id }
      if turnComplete then
        if s1.resolved then { s1 with timeoutActive := false }
        else { s1 with timeoutActive := false, resolved := true,
                       outcome := some .resolvedOk }
      else s1
  | .eError msg =>
      let s1 := { s with timeoutActive := false, sessionError := some msg }
      if s1.resolved then s1
      else { s1 with resolved := true,
                     outcome := some (.rejected (.jsError msg)) }
  | .eClose =>
      let s1 := { s with timeoutActive := false }
      if s1.resolved then s1
      else { s1 with resolved := true, outcome := some .resolvedOk }
  | .eTimeout =>
      if s.timeoutActive = false then s
      else if s.resolved then s
      else if s.audioChunks.isEmpty then
        { s with resolved := true,
                 outcome := some (.rejected (.jsError timeoutMsg)) }
      else { s with resolved := true, outcome := some .resolvedOk }
  | .eConnectFail exn =>
      let s1 := { s with timeoutActive := false }
      if s1.resolved then s1
      else { s1 with resolved := true, outcome := some (.rejected exn) }

/-- The HTTP reply the audio POST handler produces once the Promise has
settled: a rejection goes to the catch block's error mapping; a
resolution returns 500 with the session error when one was recorded,
and otherwise the accumulated fragments with the constant sample rate
24000. -/
def livePostReply (s : LiveState) : Option HttpReply :=
  match s.outcome with
  | none => none
  | some (.rejected exn) => some (mapCaughtError exn)
  | some .resolvedOk =>
      match s.sessionError with
      | some m => some (.err 500 m)
      | none => some (.ok s.audioChunks 24000)

lemma stepEvent_preserves_settled (s : LiveState) (e : LiveEvent)
    (hres : s.resolved = true) :
    (stepEvent s e).resolved = true ∧ (stepEvent s e).outcome = s.outcome := by
  cases e with
  | eOpen => exact ⟨hres, rfl⟩
  | eMessage parts turnComplete =>
    by_cases htc : turnComplete
    · simp [stepEvent, htc, hres]
    · simp [stepEvent, htc, hres]
  | eError msg => simp [stepEvent, hres]
  | eClose => simp [stepEvent, hres]
  | eTimeout =>
    by_cases hact : s.timeoutActive = false
    · simp [stepEvent, hact, hres]
    · simp [stepEvent, hact, hres]
  | eConnectFail exn => simp [stepEvent, hres]

lemma stepEvent_settles_iff (s : LiveState) (e : LiveEvent)
    (hinv : s.outcome.isSome = true → s.resolved = true) :
    (stepEvent s e).outcome.isSome = true → (stepEvent s e).resolved = true := by
  by_cases hres : s.resolved = true
  · obtain ⟨h1, h2⟩ := stepEvent_preserves_settled s e hres
    intro _
    exact h1
  · have hres' : s.resolved = false := by
      cases hsr : s.resolved
      · rfl
      · exact absurd hsr hres
    cases e with
    | eOpen => intro h; exact hinv h
    | eMessage parts turnComplete =>
      by_cases htc : turnComplete
      · simp [stepEvent, htc, hres']
      · simp only [stepEvent, htc, if_false, Bool.false_eq_true]
        intro h
        exact hinv h
    | eError msg => simp [stepEvent, hres']
    | eClose => simp [stepEvent, hres']
    | eTimeout =>
      by_cases hact : s.timeoutActive = false
      · simp only [stepEvent, hact, if_true]
        intro h
        exact hinv h
      · by_cases hempty : s.audioChunks.isEmpty
        all_goals simp [stepEvent, hact, hres', hempty]
    | eConnectFail exn => simp [stepEvent, hres']

lemma foldl_stepEvent_settled (es : List LiveEvent) (s : LiveState)
    (o : LiveOutcome) (hres : s.resolved = true) (hout : s.outcome = some o) :
    (es.foldl stepEvent s).resolved = true ∧
    (es.foldl stepEvent s).outcome = some o := by
  induction es generalizing s with
  | nil => exact ⟨hres, hout⟩
  | cons e es ih =>
    obtain ⟨h1, h2⟩ := stepEvent_preserves_settled s e hres
    exact ih (stepEvent s e) h1 (h2.trans hout)

lemma foldl_stepEvent_inv (es : List LiveEvent) (s : LiveState)
    (hinv : s.outcome.isSome = true → s.resolved = true) :
    (es.foldl stepEvent s).outcome.isSome = true →
      (es.foldl stepEvent s).resolved = true := by
  induction es generalizing s with
  | nil => exact hinv
  | cons e es ih => exact ih (stepEvent s e) (stepEvent_settles_iff s e hinv)

/-- C2: if a trace of live-turn events settles the turn's outcome, then
any further events, in any interleaving, leave that outcome unchanged:
the first resolution wins and all later open, message, error, close,
timeout and connect-failure events are no-ops with respect to the
outcome. -/
theorem live_first_resolution_wins (es more : List LiveEvent)
    (o : LiveOutcome)
    (hout : (es.foldl stepEvent initLiveState).outcome = some o) :
    ((es ++ more).foldl stepEvent initLiveState).outcome = some o := by
  rw [List.foldl_append]
  have hres : (es.foldl stepEvent initLiveState).resolved = true := by
    apply foldl_stepEvent_inv es initLiveState
    · intro h
      simp [initLiveState] at h
    · rw [hout]
      rfl
  exact (foldl_stepEvent_settled more _ o hres hout).2

/-- C2 witness: a turn-completing message settles the outcome as a
resolution, and later error, close and timeout events do not change
it. -/
theorem live_first_resolution_wins_witness :
    (([LiveEvent.eMessage [some "x"] true] ++
      [LiveEvent.eError "boom", LiveEvent.eClose,
       LiveEvent.eTimeout]).foldl stepEvent initLiveState).outcome =
      some .resolvedOk :=
  live_first_resolution_wins [LiveEvent.eMessage [some "x"] true]
    [LiveEvent.eError "boom", LiveEvent.eClose, LiveEvent.eTimeout]
    .resolvedOk (by decide)

/-- C3: when the 30-second timeout fires on an unsettled turn whose
timer is still armed (and no session error has been recorded, which
always holds before settlement), the turn resolves successfully and the
endpoint returns exactly the fragments received so far if at least one
fragment arrived; with zero fragments it rejects with the timeout
message, which the catch block maps to a 500 carrying that message. -/
theorem live_timeout_behavior (s : LiveState)
    (hres : s.resolved = false) (hact : s.timeoutActive = true)
    (herr : s.sessionError = none) :
    (s.audioChunks ≠ [] →
      (stepEvent s .eTimeout).outcome = some .resolvedOk ∧
      livePostReply (stepEvent s .eTimeout) = some (.ok s.audioChunks 24000)) ∧
    (s.audioChunks = [] →
      (stepEvent s .eTimeout).outcome =
        some (.rejected (.jsError timeoutMsg)) ∧
      livePostReply (stepEvent s .eTimeout) =
        some (.err 500 ("Error: " ++ timeoutMsg))) := by
  have hact' : ¬ (s.timeoutActive = false) := by
    rw [hact]
    exact Bool.true_eq_false ▸ fun h => by cases h
  constructor
  · intro hne
    have hempty : s.audioChunks.isEmpty = false := by
      cases hc : s.audioChunks with
      | nil => exact absurd hc hne
      | cons a l => rfl
    constructor
    · simp [stepEvent, hact', hres, hempty]
    · simp [stepEvent, hact', hres, hempty, livePostReply, herr]
  · intro hnil
    have hempty : s.audioChunks.isEmpty = true := by
      rw [hnil]
      rfl
    have hmap : mapCaughtError (.jsError timeoutMsg) =
        .err 500 ("Error: " ++ timeoutMsg) := by
      have h1 : jsIncludes timeoutMsg "API_KEY_INVALID" = false := by decide
      have h2 : jsIncludes timeoutMsg "API key" = false := by decide
      simp [mapCaughtError, h1, h2]
    constructor
    · simp [stepEvent, hact', hres, hempty]
    · simp [stepEvent, hact', hres, hempty, livePostReply, hmap]

/-- C3 witness: the timeout at a concrete state with one received
fragment, and at a concrete state with none. -/
theorem live_timeout_behavior_witness :
    (stepEvent { initLiveState with audioChunks := ["frag"] }
        .eTimeout).outcome = some .resolvedOk ∧
    (stepEvent initLiveState .eTimeout).outcome =
      some (.rejected (.jsError timeoutMsg)) :=
  ⟨((live_timeout_behavior { initLiveState with audioChunks := ["frag"] }
      rfl rfl rfl).1 (by simp)).1,
   ((live_timeout_behavior initLiveState rfl rfl rfl).2 rfl).1⟩

/-- The sample rate at which the client plays returned chunks, from the
source expression `data.sampleRate || 24000`: a missing (or JavaScript
falsy, i.e. zero) field defaults to 24000. -/
def clientPlaybackRate (sampleRate : Option ℕ) : ℕ :=
  match sampleRate with
  | none => 24000
  | some r => if r = 0 then 24000 else r

/-- C10: every successful reply of the audio-turn endpoint carries
sampleRate 24000, whatever fragments accumulated (the constant is
independent of the request), and the client plays chunks at the
reported rate, defaulting to 24000 when the field is absent. -/
theorem live_sample_rate (s : LiveState)
    (hok : s.outcome = some .resolvedOk) (herr : s.sessionError = none) :
    livePostReply s = some (.ok s.audioChunks 24000) ∧
    clientPlaybackRate (some 24000) = 24000 ∧
    clientPlaybackRate none = 24000 := by
  refine ⟨?_, rfl, rfl⟩
  rw [livePostReply, hok, herr]

/-- C10 witness: the reply and the client rate at a concrete settled
state with two fragments. -/
theorem live_sample_rate_witness :
    livePostReply
        { resolved := true, audioChunks := ["a", "b"], sessionError := none,
          timeoutActive := false, outcome := some .resolvedOk } =
      some (.ok ["a", "b"] 24000) ∧
    clientPlaybackRate none = 24000 :=
  ⟨(live_sample_rate _ rfl rfl).1,
   (live_sample_rate
      { resolved := true, audioChunks := [], sessionError := none,
        timeoutActive := false, outcome := some .resolvedOk }
      rfl rfl).2.2⟩

/-! ## Text-turn history assembly (sendTextMessage and the text POST
handler) -/

/-- A conversation message as sent over the wire: a role and the text
of its single part. -/
structure ChatMessage where
  role : String
  text : String
deriving DecidableEq

/-- The user message object built for the current turn. -/
def mkUserMessage (text : String) : ChatMessage :=
  { role := "user", text := text }

/-- The history the client sends in sendTextMessage: the conversation
with the current user message appended, then slice(1) to drop the
synthetic welcome head, then slice(0, -1) to drop the in-flight current
turn. -/
def sendTextHistory (messages : List ChatMessage) (text : String) :
    List ChatMessage :=
  ((messages ++ [mkUserMessage text]).drop 1).dropLast

/-- The outbound contents the text POST handler builds: the received
history followed by the current user message appended once. -/
def outboundContents (history : List ChatMessage) (message : String) :
    List ChatMessage :=
  history ++ [mkUserMessage message]

/-- C5: the history sent for a text turn is exactly the conversation
without its first entry (the synthetic welcome) and without the
in-flight current turn; the endpoint appends the current user message
separately, so the outbound contents contain it exactly one more time
than the prior conversation does. -/
theorem text_history_assembly (messages : List ChatMessage) (text : String) :
    sendTextHistory messages text = messages.drop 1 ∧
    outboundContents (sendTextHistory messages text) text =
      messages.drop 1 ++ [mkUserMessage text] ∧
    (outboundContents (sendTextHistory messages text) text).count
        (mkUserMessage text) =
      (messages.drop 1).count (mkUserMessage text) + 1 := by
  have h1 : sendTextHistory messages text = messages.drop 1 := by
    cases messages with
    | nil => rfl
    | cons m ms =>
      rw [sendTextHistory]
      simp
  refine ⟨h1, ?_, ?_⟩
  · rw [h1, outboundContents]
  · rw [h1, outboundContents, List.count_append]
    simp

/-! ## Recording buffer concatenation (stopRecording) -/

/-- The typed-array write `dest.set(src, off)`: the elements of src
replace those of dest starting at offset off. -/
def setAt (dest src : List ℚ) (off : ℕ) : List ℚ :=
  dest.take off ++ src ++ dest.drop (off + src.length)

/-- One iteration of the source concatenation loop: write the frame at
the running offset, then advance the offset by its length. -/
def combineStep (p : List ℚ × ℕ) (buf : List ℚ) : List ℚ × ℕ :=
  (setAt p.1 buf p.2, p.2 + buf.length)

/-- The source expression
`buffers.reduce((sum, buf) => sum + buf.length, 0)`. -/
def totalSampleLength (buffers : List (List ℚ)) : ℕ :=
  buffers.foldl (fun s b => s + b.length) 0

/-- The source concatenation in stopRecording: allocate a zeroed buffer
of the total length, then write each captured frame at the running
offset. -/
def combineBuffers (buffers : List (List ℚ)) : List ℚ :=
  (buffers.foldl combineStep
    (List.replicate (totalSampleLength buffers) 0, 0)).1

lemma foldl_length_acc (bufs : List (List ℚ)) (n : ℕ) :
    bufs.foldl (fun s b => s + b.length) n =
      n + bufs.foldl (fun s b => s + b.length) 0 := by
  induction bufs generalizing n with
  | nil => simp
  | cons b bs ih =>
    rw [List.foldl_cons, List.foldl_cons, ih, ih (0 + b.length)]
    omega

lemma totalSampleLength_cons (b : List ℚ) (bs : List (List ℚ)) :
    totalSampleLength (b :: bs) = b.length + totalSampleLength bs := by
  rw [totalSampleLength, List.foldl_cons, foldl_length_acc]
  rw [totalSampleLength]
  omega

lemma foldl_combineStep (bufs : List (List ℚ)) (done tail : List ℚ)
    (htail : tail.length = totalSampleLength bufs) :
    bufs.foldl combineStep (done ++ tail, done.length) =
      (done ++ bufs.flatten, done.length + bufs.flatten.length) := by
  induction bufs generalizing done tail with
  | nil =>
    have htail0 : tail = [] := by
      apply List.eq_nil_of_length_eq_zero
      simpa [totalSampleLength] using htail
    subst htail0
    simp
  | cons b bs ih =>
    have hblen : b.length ≤ tail.length := by
      rw [htail, totalSampleLength_cons]
      omega
    rw [List.foldl_cons]
    have hstep : combineStep (done ++ tail, done.length) b =
        ((done ++ b) ++ tail.drop b.length, (done ++ b).length) := by
      rw [combineStep, setAt]
      have htake : (done ++ tail).take done.length = done := List.take_left _ _
      have hdrop : (done ++ tail).drop (done.length + b.length) =
          tail.drop b.length := List.drop_append b.length
      rw [htake, hdrop, List.length_append]
    rw [hstep]
    have htail' : (tail.drop b.length).length = totalSampleLength bs := by
      rw [List.length_drop, htail, totalSampleLength_cons]
      omega
    rw [ih (done ++ b) (tail.drop b.length) htail']
    simp only [Prod.mk.injEq, List.flatten_cons]
    constructor
    · simp [List.append_assoc]
    · simp only [List.length_append]
      omega

lemma combineBuffers_eq_join (buffers : List (List ℚ)) :
    combineBuffers buffers = buffers.flatten := by
  rw [combineBuffers]
  have h := foldl_combineStep buffers []
    (List.replicate (totalSampleLength buffers) 0) (by simp)
  simp only [List.nil_append, List.length_nil] at h
  rw [h]

/-- C6: stopping a recording that captured k frames each of size F
produces a single contiguous buffer equal to the frames joined in
original append order, of length exactly k * F. -/
theorem stop_concatenation (buffers : List (List ℚ)) (k F : ℕ)
    (hk : buffers.length = k) (hF : ∀ b ∈ buffers, b.length = F) :
    combineBuffers buffers = buffers.flatten ∧
    (combineBuffers buffers).length = k * F := by
  refine ⟨combineBuffers_eq_join buffers, ?_⟩
  rw [combineBuffers_eq_join buffers, List.length_flatten]
  have hmap : buffers.map List.length = List.replicate k F := by
    apply List.eq_replicate_iff.mpr
    constructor
    · simp [hk]
    · intro n hn
      obtain ⟨b, hb, hbn⟩ := List.mem_map.mp hn
      rw [← hbn]
      exact hF b hb
  rw [hmap, List.sum_replicate, smul_eq_mul]

/-- C6 witness: three captured frames of two samples each concatenate
to the six samples in order. -/
theorem stop_concatenation_witness :
    combineBuffers [[(1 : ℚ), 2], [3, 4], [5, 6]] =
      [(1 : ℚ), 2, 3, 4, 5, 6] ∧
    (combineBuffers [[(1 : ℚ), 2], [3, 4], [5, 6]]).length = 3 * 2 := by
  have h := stop_concatenation [[(1 : ℚ), 2], [3, 4], [5, 6]] 3 2 rfl
    (by intro b hb; simp only [List.mem_cons, List.not_mem_nil, or_false] at hb;
        rcases hb with h | h | h <;> rw [h] <;> rfl)
  refine ⟨?_, h.2⟩
  rw [h.1]
  rfl

/-! ## Idle no-ops of the capture and playback sessions -/

/-- The component state touched by stopRecording and playAudioChunks. -/
structure AppState where
  isRecording : Bool
  isProcessingAudio : Bool
  isPlayingAudio : Bool
  errorMsg : String
  audioLevel : ℕ
  liveMode : Bool
  pcmBuffer : List (List ℚ)
deriving DecidableEq

/-- The source stopRecording: a no-op while not recording; otherwise
clears the recording flag and visualization level, then, if no frame
was captured, returns without a buffer and submits nothing; otherwise
concatenates the frames, clears the frame buffer and submits the
combined audio when live mode is on.  The second component is the
buffer handed to sendAudioToLiveAPI, none when no turn is submitted. -/
def stopRecording (s : AppState) : AppState × Option (List ℚ) :=
  if s.isRecording = false then (s, none)
  else
    let s1 := { s with isRecording := false, audioLevel := 0 }
    if s1.pcmBuffer.isEmpty then (s1, none)
    else
      let combined := combineBuffers s1.pcmBuffer
      ({ s1 with pcmBuffer := [] },
        if s1.liveMode then some combined else none)

/-- The source playAudioChunks: returns immediately on an empty chunk
list; otherwise sets the playing flag (the playback itself is device
output). -/
def playAudioChunks (s : AppState) (audioChunks : List String) : AppState :=
  if audioChunks.isEmpty then s
  else { s with isPlayingAudio := true }

/-- C9: stopping a recording that captured zero frames returns no
buffer, submits no audio turn and leaves the session idle with the
recording flag false and the error state untouched; playing an empty
chunk list returns the state unchanged, setting no playing flag and
reporting no error. -/
theorem silent_noops (s : AppState) (hrec : s.isRecording = true)
    (hbuf : s.pcmBuffer = []) :
    (stopRecording s).2 = none ∧
    (stopRecording s).1.isRecording = false ∧
    (stopRecording s).1.errorMsg = s.errorMsg ∧
    (stopRecording s).1.isProcessingAudio = s.isProcessingAudio ∧
    (∀ t : AppState, playAudioChunks t [] = t) := by
  refine ⟨?_, ?_, ?_, ?_, fun t => rfl⟩ <;>
    simp [stopRecording, hrec, hbuf]

/-- C9 witness: the zero-frame stop and the empty play at a concrete
state. -/
theorem silent_noops_witness :
    (stopRecording ⟨true, false, false, "", 3, true, []⟩).2 = none ∧
    (stopRecording ⟨true, false, false, "", 3, true, []⟩).1.isRecording =
      false ∧
    playAudioChunks ⟨false, false, false, "", 0, true, []⟩ [] =
      ⟨false, false, false, "", 0, true, []⟩ :=
  ⟨(silent_noops ⟨true, false, false, "", 3, true, []⟩ rfl rfl).1,
   (silent_noops ⟨true, false, false, "", 3, true, []⟩ rfl rfl).2.1,
   (silent_noops ⟨true, false, false, "", 3, true, []⟩ rfl rfl).2.2.2.2
     ⟨false, false, false, "", 0, true, []⟩⟩

end AllBahasa
